import Mathlib

/-!
Verification of the Transformers-from-scratch JAX notebooks.

A shallow embedding, in Lean 4, of the notebook code of the repository
(bigram → scaled single-head attention → multi-headed attention →
transformer decoder → GPT-2), together with theorems settling the frozen
claims about it.

Conventions of the embedding:

* A JAX array of shape `(B, T, C)` of finite floats is embedded as a
  function `Fin B → Fin T → Fin C → ℚ`; exact rational arithmetic stands
  for float arithmetic.
* The two irrational scalar primitives the notebooks delegate to the
  library — `jnp.exp` (inside `jax.nn.softmax`) and the reciprocal square
  root (the constant `self.head_size ** -0.5` and the `rsqrt` inside
  `nn.LayerNorm`) — are carried as explicit function/constant parameters
  `e : ℚ → ℚ`, `rsqrt : ℚ → ℚ`, `scale : ℚ`.  Every theorem below holds
  for all values of these parameters (positivity is assumed where the
  claim needs it), hence in particular for the real exponential and
  reciprocal square root.
* The fill value `-jnp.inf` produced by the causal mask is embedded by
  `none` in `Option ℚ`: a masked attention score is `none`, a finite one
  is `some r`, and the exponential extends with `exp (-∞) = 0`.
* Fallible notebook code (dict lookup raising `KeyError`, the dataset
  download raising on network failure) is embedded with `Except`/`Option`.
-/

namespace TransformersJax

/-- A `(B, T, C)`-shaped array of (finite) floats. -/
abbrev Arr3 (B T C : ℕ) := Fin B → Fin T → Fin C → ℚ

/-- Embeds `nn.Dense(features, use_bias=False)`: `y[b,t,h] = Σ_c x[b,t,c] * w[c,h]`. -/
def dense {B T Cin Cout : ℕ} (w : Fin Cin → Fin Cout → ℚ) (x : Arr3 B T Cin) :
    Arr3 B T Cout :=
  fun b t h => ∑ c, x b t c * w c h

/-- Embeds `jnp.tril(jnp.ones(shape=(T, T), dtype=bool))`: entry `(t, s)` is
true exactly when `s ≤ t` (lower triangle, diagonal included). -/
def tril (T : ℕ) : Fin T → Fin T → Bool :=
  fun t s => decide (s.val ≤ t.val)

/-- Embeds `jnp.repeat(tril[None, ...], repeats=B, axis=0)`: the same
lower-triangular mask for every batch element. -/
def trilRepeat (B T : ℕ) : Fin B → Fin T → Fin T → Bool :=
  fun _ t s => tril T t s

/-- Modelled from the spec: `masked_fill` is defined in `helper_funcs.py`,
which the notebooks import but which is not under `src/`.  Per the spec's
description of the attention mask ("the future weights are then altered to
have zero affinity") and the displayed notebook output (strictly upper
triangular attention weights all `0.0`), `masked_fill(mask, a, -jnp.inf)`
keeps `a` where the boolean mask is true and puts the fill value `-∞`
where it is false.  A `-∞` score is embedded as `none`. -/
def masked_fill {B T : ℕ} (mask : Fin B → Fin T → Fin T → Bool)
    (a : Fin B → Fin T → Fin T → ℚ) : Fin B → Fin T → Fin T → Option ℚ :=
  fun b t s => if mask b t s then some (a b t s) else none

/-- The exponential `e` extended to `-∞` by `exp (-∞) = 0`;
this is the value `jnp.exp` takes at `-jnp.inf`. -/
def expExt (e : ℚ → ℚ) : Option ℚ → ℚ
  | none => 0
  | some a => e a

/-- Embeds `jax.nn.softmax(w, axis=-1)` on a `(B, T, T)` array of scores that
may contain `-∞`: `softmax(w)[b,t,s] = exp w[b,t,s] / Σ_u exp w[b,t,u]`. -/
def softmaxLast {B T : ℕ} (e : ℚ → ℚ) (w : Fin B → Fin T → Fin T → Option ℚ) :
    Fin B → Fin T → Fin T → ℚ :=
  fun b t s => expExt e (w b t s) / ∑ u, expExt e (w b t u)

/-- The parameters of one `Head` module: the kernels of the three
bias-free `nn.Dense(head_size)` layers `key`, `query`, `value`. -/
structure HeadParams (C H : ℕ) where
  wk : Fin C → Fin H → ℚ
  wq : Fin C → Fin H → ℚ
  wv : Fin C → Fin H → ℚ

/-- The raw attention scores of `Head.__call__`:
`weights = q @ k.transpose((0, -1, -2)) * self.head_size ** -0.5`,
where `q = query(x)` and `k = key(x)`.  `scale` stands for the float
constant `self.head_size ** -0.5`. -/
def headScores {B T C H : ℕ} (scale : ℚ) (p : HeadParams C H) (x : Arr3 B T C) :
    Fin B → Fin T → Fin T → ℚ :=
  fun b t s => (∑ h, dense p.wq x b t h * dense p.wk x b s h) * scale

/-- The attention weights of `Head.__call__` after masking and softmax:
`weights = jax.nn.softmax(masked_fill(tril, weights, -jnp.inf), axis=-1)`. -/
def headWeights {B T C H : ℕ} (e : ℚ → ℚ) (scale : ℚ) (p : HeadParams C H)
    (x : Arr3 B T C) : Fin B → Fin T → Fin T → ℚ :=
  softmaxLast e (masked_fill (trilRepeat B T) (headScores scale p x))

/-- The output of `Head.__call__` (scaled self-attention notebook and
multi-head notebook, i.e. without dropout): `out = weights @ v` with
`v = value(x)`. -/
def headOut {B T C H : ℕ} (e : ℚ → ℚ) (scale : ℚ) (p : HeadParams C H)
    (x : Arr3 B T C) : Arr3 B T H :=
  fun b t h => ∑ s, headWeights e scale p x b t s * dense p.wv x b s h

/-- A strictly-future attention weight is zero: for `t < s` the mask entry is
false, the score is `-∞`, its exponential is `0`, and `0 / d = 0`. -/
theorem headWeights_future_eq_zero {B T C H : ℕ} (e : ℚ → ℚ) (scale : ℚ)
    (p : HeadParams C H) (x : Arr3 B T C) (b : Fin B) (t s : Fin T)
    (hts : t.val < s.val) :
    headWeights e scale p x b t s = 0 := by
  have hmask : masked_fill (trilRepeat B T) (headScores scale p x) b t s = none := by
    have : trilRepeat B T b t s = false := by
      simp only [trilRepeat, tril, decide_eq_false_iff_not]
      omega
    simp [masked_fill, this]
  simp [headWeights, softmaxLast, hmask, expExt]

/-- The map `dense` at one position depends only on the input at that position. -/
theorem dense_congr_pos {B T Cin Cout : ℕ} (w : Fin Cin → Fin Cout → ℚ)
    (x y : Arr3 B T Cin) (b : Fin B) (t : Fin T)
    (hxy : ∀ c, x b t c = y b t c) :
    ∀ h, dense w x b t h = dense w y b t h := by
  intro h
  unfold dense
  exact Finset.sum_congr rfl fun c _ => by rw [hxy c]

/-- The attention weights of row `t'` depend only on the input at
positions `≤ t'`. -/
theorem headWeights_congr {B T C H : ℕ} (e : ℚ → ℚ) (scale : ℚ)
    (p : HeadParams C H) (x y : Arr3 B T C) (b : Fin B) (t' : Fin T)
    (hxy : ∀ s : Fin T, s.val ≤ t'.val → ∀ c, x b s c = y b s c) :
    ∀ s, headWeights e scale p x b t' s = headWeights e scale p y b t' s := by
  have hscore : ∀ s : Fin T, s.val ≤ t'.val →
      headScores scale p x b t' s = headScores scale p y b t' s := by
    intro s hs
    unfold headScores
    have hq := dense_congr_pos p.wq x y b t' (hxy t' le_rfl)
    have hk := dense_congr_pos p.wk x y b s (hxy s hs)
    congr 1
    exact Finset.sum_congr rfl fun h _ => by rw [hq h, hk h]
  have hent : ∀ s : Fin T,
      expExt e (masked_fill (trilRepeat B T) (headScores scale p x) b t' s) =
      expExt e (masked_fill (trilRepeat B T) (headScores scale p y) b t' s) := by
    intro s
    by_cases hs : s.val ≤ t'.val
    · have hm : trilRepeat B T b t' s = true := by
        simp only [trilRepeat, tril, decide_eq_true_eq]
        exact hs
      simp [masked_fill, hm, hscore s hs]
    · have hm : trilRepeat B T b t' s = false := by
        simp only [trilRepeat, tril, decide_eq_false_iff_not]
        exact hs
      simp [masked_fill, hm]
  intro s
  unfold headWeights softmaxLast
  rw [hent s]
  congr 1
  exact Finset.sum_congr rfl fun u _ => hent u

/-- Claim C1: causal masking in `Head.__call__`.  After `masked_fill` with the
lower-triangular boolean mask and softmax, the attention weight at row `t`,
column `s` is zero for every `s > t`; consequently, for two inputs that agree
at all positions `≤ t` (same parameters), the output rows at positions `≤ t`
are equal — the output at a position never depends on later positions.  Proved
for every exponential `e`, every scaling constant, and all parameters. -/
theorem head_causal_masking {B T C H : ℕ} (e : ℚ → ℚ) (scale : ℚ)
    (p : HeadParams C H) (x y : Arr3 B T C) (b : Fin B) (t : Fin T)
    (hagree : ∀ s : Fin T, s.val ≤ t.val → ∀ c, x b s c = y b s c) :
    (∀ s : Fin T, t.val < s.val → headWeights e scale p x b t s = 0) ∧
    (∀ t' : Fin T, t'.val ≤ t.val → ∀ h,
      headOut e scale p x b t' h = headOut e scale p y b t' h) := by
  constructor
  · intro s hts
    exact headWeights_future_eq_zero e scale p x b t s hts
  · intro t' ht' h
    have hagree' : ∀ s : Fin T, s.val ≤ t'.val → ∀ c, x b s c = y b s c :=
      fun s hs c => hagree s (le_trans hs ht') c
    have hw := headWeights_congr e scale p x y b t' hagree'
    unfold headOut
    refine Finset.sum_congr rfl fun s _ => ?_
    by_cases hs : s.val ≤ t'.val
    · rw [hw s, dense_congr_pos p.wv x y b s (hagree' s hs) h]
    · have hx0 := headWeights_future_eq_zero e scale p x b t' s (by omega)
      have hy0 := headWeights_future_eq_zero e scale p y b t' s (by omega)
      rw [hx0, hy0, zero_mul, zero_mul]

/-- A concrete stand-in for `jnp.exp` used by witnesses. -/
def expW : ℚ → ℚ := fun a => a * a + 1

/-- Concrete head parameters (all kernels constantly one) used by witnesses. -/
def headParamsW : HeadParams 1 1 := ⟨fun _ _ => 1, fun _ _ => 1, fun _ _ => 1⟩

/-- A concrete `(1, 2, 1)` input used by witnesses. -/
def xW : Arr3 1 2 1 := fun _ t _ => if t.val = 0 then 2 else 1

/-- A second concrete `(1, 2, 1)` input that agrees with `xW` at position 0
but differs at position 1. -/
def yW : Arr3 1 2 1 := fun _ t _ => if t.val = 0 then 2 else 7

/-- Witness for claim C1 at `B = 1, T = 2, C = H = 1`. -/
theorem head_causal_masking_witness :
    (∀ s : Fin 2, s.val ≤ (0 : Fin 2).val → ∀ c : Fin 1, xW 0 s c = yW 0 s c) ∧
    headWeights expW 1 headParamsW xW 0 0 1 = 0 ∧
    headOut expW 1 headParamsW xW 0 0 0 = headOut expW 1 headParamsW yW 0 0 0 := by
  have h := head_causal_masking expW 1 headParamsW xW yW 0 0
    (by decide)
  exact ⟨by decide, h.1 1 (by decide), h.2 0 (by decide) 0⟩

/-! ## Data preparation: dataset download cell and character codec

Every notebook contains the same data-preparation cell: download
`input.txt` if absent, read it, build `chars = sorted(list(set(data)))`,
the dicts `stoi` / `itos`, and the functions `encode` / `decode`. -/

/-- The one file path every notebook touches:
`os.path.join('./data/shakespeare_char/input.txt')`. -/
def inputFilePath : String := "./data/shakespeare_char/input.txt"

/-- Embeds the download-and-read cell as a transformer of an abstract file
system (`fs : String → Option String`, `none` = file absent).  `net` is the
result of `requests.get(data_url).text`: `Except.error` when the network
request raises.  The cell writes the file only when it does not exist, and
nothing catches a raised network error. -/
def downloadCell {NetErr : Type} (fs : String → Option String)
    (net : Except NetErr String) : Except NetErr (String → Option String) :=
  match fs inputFilePath with
  | some _ => Except.ok fs
  | none =>
    match net with
    | Except.error e => Except.error e
    | Except.ok txt => Except.ok (fun q => if q = inputFilePath then some txt else fs q)

/-- The download-and-read cell on the path where the network call succeeds
(the only path on which the rest of the notebook runs). -/
def downloadCellOk (fs : String → Option String) (net : String) :
    String → Option String :=
  match fs inputFilePath with
  | some _ => fs
  | none => fun q => if q = inputFilePath then some net else fs q

/-- Embeds `chars = sorted(list(set(data)))`: the distinct characters of the
dataset in ascending order. -/
def pyChars (data : List Char) : List Char :=
  List.insertionSort (· ≤ ·) data.dedup

/-- Embeds the dict lookup `stoi[c]` with `stoi = {ch: i for i, ch in
enumerate(chars)}`: the index of `c` in `chars`, or a `KeyError` carrying the
missing key when `c` does not occur in the dataset. -/
def stoi (data : List Char) (c : Char) : Except Char ℕ :=
  if c ∈ pyChars data then Except.ok ((pyChars data).indexOf c) else Except.error c

/-- A Python list comprehension `[f a for a in l]` over a fallible `f`: it
propagates the exception raised at the first failing element. -/
def comprehension {ε α β : Type} (f : α → Except ε β) : List α → Except ε (List β)
  | [] => Except.ok []
  | a :: l =>
    match f a with
    | Except.error e => Except.error e
    | Except.ok b =>
      match comprehension f l with
      | Except.error e => Except.error e
      | Except.ok bs => Except.ok (b :: bs)

/-- Embeds `encode(s) = [stoi[c] for c in s]`; the comprehension propagates
the `KeyError` of the first character missing from the dataset. -/
def encode (data s : List Char) : Except Char (List ℕ) :=
  comprehension (stoi data) s

/-- Embeds the dict lookup `itos[i]` with `itos = {i: ch for i, ch in
enumerate(chars)}`: a `KeyError` carrying `i` when `i` is out of range. -/
def itos (data : List Char) (i : ℕ) : Except ℕ Char :=
  match (pyChars data).get? i with
  | some c => Except.ok c
  | none => Except.error i

/-- Embeds `decode(l) = ''.join([itos[i] for i in l])`. -/
def decode (data : List Char) (l : List ℕ) : Except ℕ (List Char) :=
  comprehension (itos data) l

/-- A character occurs in `chars = sorted(list(set(data)))` exactly when it
occurs in the dataset. -/
theorem mem_pyChars {data : List Char} {c : Char} :
    c ∈ pyChars data ↔ c ∈ data := by
  unfold pyChars
  rw [List.mem_insertionSort, List.mem_dedup]

/-- Claim C3: character-level encoding round-trip.  `encode` maps each
character to its index in the sorted distinct characters of the dataset,
`decode` maps indices back; for every string all of whose characters occur in
the dataset, `decode (encode s) = s`. -/
theorem encode_decode_roundtrip (data s : List Char)
    (hs : ∀ c ∈ s, c ∈ data) :
    ∃ ids : List ℕ, encode data s = Except.ok ids ∧ decode data ids = Except.ok s := by
  induction s with
  | nil => exact ⟨[], by simp [encode, decode, comprehension]⟩
  | cons a s ih =>
    obtain ⟨ids, hok, hdec⟩ := ih fun c hc => hs c (List.mem_cons_of_mem a hc)
    have ha : a ∈ pyChars data := mem_pyChars.mpr (hs a (List.mem_cons_self a s))
    have hok' : comprehension (stoi data) s = Except.ok ids := hok
    have hdec' : comprehension (itos data) ids = Except.ok s := hdec
    refine ⟨(pyChars data).indexOf a :: ids, ?_, ?_⟩
    · simp [encode, comprehension, stoi, ha, hok']
    · have hget : (pyChars data)[(pyChars data).indexOf a]? = some a :=
        List.getElem?_indexOf ha
      simp [decode, comprehension, itos, hget, hdec']

/-- Witness for claim C3 at a concrete dataset and string. -/
theorem encode_decode_roundtrip_witness :
    (∀ c ∈ [Char.ofNat 98, Char.ofNat 97], c ∈ [Char.ofNat 97, Char.ofNat 98, Char.ofNat 97]) ∧
    ∃ ids : List ℕ,
      encode [Char.ofNat 97, Char.ofNat 98, Char.ofNat 97] [Char.ofNat 98, Char.ofNat 97] = Except.ok ids ∧
      decode [Char.ofNat 97, Char.ofNat 98, Char.ofNat 97] ids = Except.ok [Char.ofNat 98, Char.ofNat 97] :=
  ⟨by decide, encode_decode_roundtrip _ _ (by decide)⟩

/-- Function `encode` applied to a string containing a character missing from the
dataset raises a `KeyError` carrying such a character. -/
theorem encode_error_of_missing {data s : List Char}
    (hc : ∃ c ∈ s, c ∉ data) :
    ∃ c, c ∈ s ∧ c ∉ data ∧ encode data s = Except.error c := by
  induction s with
  | nil => simp at hc
  | cons a s ih =>
    by_cases ha : a ∈ data
    · obtain ⟨c, hcs, hcd⟩ := hc
      rcases List.mem_cons.mp hcs with hca | hcs'
      · exact absurd (hca ▸ ha) hcd
      · obtain ⟨c0, h1, h2, herr⟩ := ih ⟨c, hcs', hcd⟩
        have herr' : comprehension (stoi data) s = Except.error c0 := herr
        refine ⟨c0, List.mem_cons_of_mem a h1, h2, ?_⟩
        simp [encode, comprehension, stoi, mem_pyChars.mpr ha, herr']
    · refine ⟨a, List.mem_cons_self a s, ha, ?_⟩
      have hnp : a ∉ pyChars data := fun h => ha (mem_pyChars.mp h)
      simp [encode, comprehension, stoi, hnp]

/-- Claim C4: failures surface as uncaught exceptions.  `encode` on a string
with a character not in the dataset evaluates to an uncaught `KeyError`
(carrying the missing character), and a network failure in the dataset
download cell propagates out of the cell unhandled. -/
theorem uncaught_failures {NetErr : Type} (data s : List Char)
    (fs : String → Option String) (err : NetErr)
    (hc : ∃ c ∈ s, c ∉ data) (hfs : fs inputFilePath = none) :
    (∃ c, c ∈ s ∧ c ∉ data ∧ encode data s = Except.error c) ∧
    downloadCell fs (Except.error err) = Except.error err := by
  refine ⟨encode_error_of_missing hc, ?_⟩
  unfold downloadCell
  rw [hfs]

/-- Witness for claim C4 at dataset `"a"` and string `"b"`, with an empty
file system and a network error. -/
theorem uncaught_failures_witness :
    (∃ c ∈ [Char.ofNat 98], c ∉ [Char.ofNat 97]) ∧
    ((fun _ : String => (none : Option String)) inputFilePath = none) ∧
    ((∃ c, c ∈ [Char.ofNat 98] ∧ c ∉ [Char.ofNat 97] ∧
        encode [Char.ofNat 97] [Char.ofNat 98] = Except.error c) ∧
      downloadCell (fun _ : String => (none : Option String)) (Except.error ()) =
        Except.error ()) :=
  ⟨by decide, rfl,
    uncaught_failures [Char.ofNat 97] [Char.ofNat 98]
      (fun _ : String => (none : Option String)) () (by decide) rfl⟩

/-- Claim C5: the only file I/O is one conditional write of
`./data/shakespeare_char/input.txt` (performed only when the file does not
already exist) followed by one read of that same file.  Formally, for the
download-and-read cell: (a) no path other than `inputFilePath` is ever
changed; (b) when the file already exists nothing at all is written; (c) after
the cell the file exists, so the read succeeds; (d) the read depends only on
the contents of that single path, i.e. no other file is read. -/
theorem download_single_file_io (fs : String → Option String) (net q : String)
    (hq : q ≠ inputFilePath) :
    downloadCellOk fs net q = fs q ∧
    ((fs inputFilePath).isSome → downloadCellOk fs net = fs) ∧
    (downloadCellOk fs net inputFilePath).isSome ∧
    (∀ fs2 : String → Option String, fs2 inputFilePath = fs inputFilePath →
      downloadCellOk fs2 net inputFilePath = downloadCellOk fs net inputFilePath) := by
  refine ⟨?_, ?_, ?_, ?_⟩
  · unfold downloadCellOk
    cases fs inputFilePath with
    | some v => rfl
    | none => simp [hq]
  · intro hsome
    unfold downloadCellOk
    cases h : fs inputFilePath with
    | some v => rfl
    | none => rw [h] at hsome; simp at hsome
  · unfold downloadCellOk
    cases h : fs inputFilePath with
    | some v => simp [h]
    | none => simp
  · intro fs2 h2
    unfold downloadCellOk
    rw [h2]
    cases h : fs inputFilePath with
    | some v => simp [h2, h]
    | none => simp

/-- Witness for claim C5 at an empty file system and the path `"other"`. -/
theorem download_single_file_io_witness :
    ("other" ≠ inputFilePath) ∧
    downloadCellOk (fun _ : String => (none : Option String)) "txt" "other" =
      (fun _ : String => (none : Option String)) "other" ∧
    (downloadCellOk (fun _ : String => (none : Option String)) "txt" inputFilePath).isSome := by
  have h := download_single_file_io (fun _ : String => (none : Option String)) "txt"
    "other" (by decide)
  exact ⟨by decide, h.1, h.2.2.1⟩

/-! ## The training loop

Each notebook's training cell is

```
steps = 100
for step in range(steps):
    rng_key, subkey = jax.random.split(rng_key)
    xb, yb = get_batch(train_ids, subkey, batch_size, block_size)
    loss, grads = value_and_grad(loss_fn, argnums=(0))(variables, model.apply, xb, yb)
    updates, opt_state = optimizer.update(grads, opt_state, variables)
    variables = optax.apply_updates(variables, updates)
```

(`bigram.ipynb` additionally rebinds `batch_size = 32` in this cell.)  All
assignments are at notebook top level, so besides the loop-carried triple
(`rng_key`, `variables`, `opt_state`) every iteration also rebinds the
scratch globals `subkey`, `xb`, `yb`, `loss`, `grads`, `updates` and the
loop variable `step`; the cell itself rebinds `steps` (and, in the bigram
notebook, `batch_size`).  The state `TrainGlobals` below carries all ten
loop-assigned globals.  The library operations (`jax.random.split`,
`helper_funcs.get_batch`, `value_and_grad(loss_fn)`, `optimizer.update`,
`optax.apply_updates`) are abstract functions in `TrainOps`; the claim is
about the shape of the loop, not about what those operations compute. -/

/-- The operations the loop body delegates to the libraries and to
`helper_funcs`.  `K` = rng keys, `V` = model variables, `O` = optimizer
state, `I` = the encoded dataset, `L` = loss values, `Xb`/`Yb` = the two
halves of a batch, `G` = gradients, `U` = parameter updates. -/
structure TrainOps (K V O I L Xb Yb G U : Type) where
  split : K → K × K
  get_batch : I → K → ℕ → ℕ → Xb × Yb
  lossGrad : V → Xb → Yb → L × G
  update : G → O → V → U × O
  apply_updates : V → U → V

/-- All ten notebook globals assigned inside the training cell: the
loop-carried triple `rng_key` / `vars` (the notebook's `variables`) /
`opt_state`, and the per-iteration scratch globals `subkey`, `xb`, `yb`,
`loss`, `grads`, `updates` and the loop variable `step`. -/
structure TrainGlobals (K V O Xb Yb L G U : Type) where
  rng_key : K
  vars : V
  opt_state : O
  subkey : K
  xb : Xb
  yb : Yb
  loss : L
  grads : G
  updates : U
  step : ℕ

/-- One iteration of the loop body, with every top-level assignment of the
source recorded in the state; `i` is the value `range(steps)` gives the loop
variable `step` in this iteration. -/
def trainStepFull {K V O I L Xb Yb G U : Type}
    (ops : TrainOps K V O I L Xb Yb G U) (train_ids : I)
    (batch_size block_size i : ℕ) (g : TrainGlobals K V O Xb Yb L G U) :
    TrainGlobals K V O Xb Yb L G U :=
  let ks := ops.split g.rng_key
  let batch := ops.get_batch train_ids ks.2 batch_size block_size
  let lg := ops.lossGrad g.vars batch.1 batch.2
  let uo := ops.update lg.2 g.opt_state g.vars
  { rng_key := ks.1
    vars := ops.apply_updates g.vars uo.1
    opt_state := uo.2
    subkey := ks.2
    xb := batch.1
    yb := batch.2
    loss := lg.1
    grads := lg.2
    updates := uo.1
    step := i }

/-- The loop `for step in range(steps): ...` over the full global state. -/
def trainLoopFull {K V O I L Xb Yb G U : Type}
    (ops : TrainOps K V O I L Xb Yb G U) (train_ids : I)
    (batch_size block_size steps : ℕ) (g : TrainGlobals K V O Xb Yb L G U) :
    TrainGlobals K V O Xb Yb L G U :=
  (List.range steps).foldl
    (fun s i => trainStepFull ops train_ids batch_size block_size i s) g

/-- The sequence of global states after each iteration, starting at loop
index `i` and running `n` more iterations (used to count iterations). -/
def trainTraceFull {K V O I L Xb Yb G U : Type}
    (ops : TrainOps K V O I L Xb Yb G U) (train_ids : I)
    (batch_size block_size : ℕ) :
    ℕ → ℕ → TrainGlobals K V O Xb Yb L G U → List (TrainGlobals K V O Xb Yb L G U)
  | _, 0, _ => []
  | i, n + 1, g =>
    let g1 := trainStepFull ops train_ids batch_size block_size i g
    g1 :: trainTraceFull ops train_ids batch_size block_size (i + 1) n g1

/-- The loop-carried part of the state: the only three globals an iteration
reads back from the previous iteration. -/
structure TrainState (K V O : Type) where
  rng_key : K
  vars : V
  opt_state : O

/-- The action of one iteration on the loop-carried triple (the projection
of `trainStepFull`). -/
def trainStep {K V O I L Xb Yb G U : Type}
    (ops : TrainOps K V O I L Xb Yb G U) (train_ids : I)
    (batch_size block_size : ℕ) (st : TrainState K V O) : TrainState K V O :=
  let ks := ops.split st.rng_key
  let batch := ops.get_batch train_ids ks.2 batch_size block_size
  let lg := ops.lossGrad st.vars batch.1 batch.2
  let uo := ops.update lg.2 st.opt_state st.vars
  { rng_key := ks.1
    vars := ops.apply_updates st.vars uo.1
    opt_state := uo.2 }

/-- The projection of the full global state onto the loop-carried triple. -/
def carriedPart {K V O Xb Yb L G U : Type}
    (g : TrainGlobals K V O Xb Yb L G U) : TrainState K V O :=
  ⟨g.rng_key, g.vars, g.opt_state⟩

/-- The loop on the carried triple alone. -/
def trainLoop {K V O I L Xb Yb G U : Type}
    (ops : TrainOps K V O I L Xb Yb G U) (train_ids : I)
    (batch_size block_size steps : ℕ) (st : TrainState K V O) : TrainState K V O :=
  (List.range steps).foldl (fun s _ => trainStep ops train_ids batch_size block_size s) st

/-- The notebook's global state around the training cell: the ten
loop-assigned globals, the cell-assigned `steps` and `batch_size`, the
`block_size` and `train_ids` the loop reads, and every remaining global
(the model, the optimizer, the dataset text, `chars`, …) in `rest`. -/
structure NotebookGlobals (K V O Xb Yb L G U I M : Type) where
  train : TrainGlobals K V O Xb Yb L G U
  steps : ℕ
  batch_size : ℕ
  block_size : ℕ
  train_ids : I
  rest : M

/-- The training cell of the four non-bigram notebooks: `steps = 100`, then
the loop. -/
def trainCell {K V O I L Xb Yb G U M : Type}
    (ops : TrainOps K V O I L Xb Yb G U)
    (nb : NotebookGlobals K V O Xb Yb L G U I M) :
    NotebookGlobals K V O Xb Yb L G U I M :=
  { nb with
    steps := 100
    train := trainLoopFull ops nb.train_ids nb.batch_size nb.block_size 100 nb.train }

/-- The training cell of `bigram.ipynb`: `steps = 100`, `batch_size = 32`,
then the loop. -/
def trainCellBigram {K V O I L Xb Yb G U M : Type}
    (ops : TrainOps K V O I L Xb Yb G U)
    (nb : NotebookGlobals K V O Xb Yb L G U I M) :
    NotebookGlobals K V O Xb Yb L G U I M :=
  { nb with
    steps := 100
    batch_size := 32
    train := trainLoopFull ops nb.train_ids 32 nb.block_size 100 nb.train }

/-- The loop over `range steps` on the carried triple is exactly `steps`
applications of the body. -/
theorem trainLoop_eq_iterate {K V O I L Xb Yb G U : Type}
    (ops : TrainOps K V O I L Xb Yb G U) (train_ids : I)
    (batch_size block_size : ℕ) :
    ∀ (steps : ℕ) (st : TrainState K V O),
      trainLoop ops train_ids batch_size block_size steps st =
        (fun s => trainStep ops train_ids batch_size block_size s)^[steps] st := by
  intro steps
  induction steps with
  | zero => intro st; rfl
  | succ n ih =>
    intro st
    unfold trainLoop
    rw [List.range_succ, List.foldl_append]
    have := ih st
    unfold trainLoop at this
    rw [this, Function.iterate_succ_apply']
    rfl

/-- An iteration reads only the carried triple: projecting the full loop
gives the triple loop.  (In particular the scratch globals never feed back
into the next iteration.) -/
theorem carriedPart_foldl {K V O I L Xb Yb G U : Type}
    (ops : TrainOps K V O I L Xb Yb G U) (train_ids : I)
    (batch_size block_size : ℕ) :
    ∀ (l : List ℕ) (g : TrainGlobals K V O Xb Yb L G U),
      carriedPart (l.foldl
          (fun s i => trainStepFull ops train_ids batch_size block_size i s) g) =
        l.foldl (fun s _ => trainStep ops train_ids batch_size block_size s)
          (carriedPart g) := by
  intro l
  induction l with
  | nil => intro g; rfl
  | cons i l ih =>
    intro g
    simp only [List.foldl_cons]
    rw [ih]
    rfl

/-- The trace of a run of `n` iterations has length exactly `n`. -/
theorem trainTraceFull_length {K V O I L Xb Yb G U : Type}
    (ops : TrainOps K V O I L Xb Yb G U) (train_ids : I)
    (batch_size block_size : ℕ) :
    ∀ (n i : ℕ) (g : TrainGlobals K V O Xb Yb L G U),
      (trainTraceFull ops train_ids batch_size block_size i n g).length = n := by
  intro n
  induction n with
  | zero => intro i g; rfl
  | succ m ih => intro i g; simp [trainTraceFull, ih]

/-- Concrete training operations (everything `ℕ`-valued) used by the C2
counterexample: the split bumps the key, so the rng state genuinely changes
from one iteration to the next. -/
def trainOpsW : TrainOps ℕ ℕ ℕ ℕ ℕ ℕ ℕ ℕ ℕ where
  split := fun k => (k + 1, k + 1)
  get_batch := fun _ k _ _ => (k, k + 2)
  lossGrad := fun v xb yb => (xb + yb, v + 3)
  update := fun g o _ => (g, o + 1)
  apply_updates := fun v u => v + u

/-- The all-zero initial global state used by the C2 counterexample. -/
def trainGlobalsW : TrainGlobals ℕ ℕ ℕ ℕ ℕ ℕ ℕ ℕ :=
  ⟨0, 0, 0, 0, 0, 0, 0, 0, 0, 0⟩

/-- Concrete notebook globals used by the C2 counterexample, with the
pre-cell `batch_size = 4` of `bigram.ipynb`. -/
def notebookGlobalsW : NotebookGlobals ℕ ℕ ℕ ℕ ℕ ℕ ℕ ℕ ℕ ℕ :=
  { train := trainGlobalsW
    steps := 0
    batch_size := 4
    block_size := 8
    train_ids := 0
    rest := 0 }

set_option maxRecDepth 10000 in
/-- Counterexample to claim C2 as stated: the training loop does NOT mutate
only `rng_key`, `variables` and `opt_state`.  On a concrete run of the 100
iterations the scratch globals change (`subkey` goes from 0 to 100, `xb`,
`loss`, `step`, … likewise), and the bigram training cell additionally
rebinds `batch_size` from 4 to 32. -/
theorem training_loop_mutates_scratch_globals :
    (trainLoopFull trainOpsW 0 32 8 100 trainGlobalsW).subkey ≠ trainGlobalsW.subkey ∧
    (trainLoopFull trainOpsW 0 32 8 100 trainGlobalsW).xb ≠ trainGlobalsW.xb ∧
    (trainLoopFull trainOpsW 0 32 8 100 trainGlobalsW).step ≠ trainGlobalsW.step ∧
    (trainCellBigram trainOpsW notebookGlobalsW).batch_size ≠
      notebookGlobalsW.batch_size := by
  refine ⟨by decide, by decide, by decide, by decide⟩

/-- Claim C2 (amended): each notebook's training cell runs the loop for
exactly `steps = 100` iterations — the state trace has length 100 and the
loop-carried state is the 100-fold iterate of the body — and each iteration
splits the rng key, draws one batch, computes the loss and its gradients,
calls the optimizer update once and applies the updates.  The loop-carried
state is exactly the triple (`rng_key`, `variables`, `opt_state`): the
also-rebound scratch globals (`subkey`, `xb`, `yb`, `loss`, `grads`,
`updates`, `step`) never feed back into the next iteration.  Besides those
ten globals and the cell-level rebindings (`steps = 100`; in the bigram
notebook also `batch_size = 32`), no other notebook global changes. -/
theorem training_loop_behaviour_amended {K V O I L Xb Yb G U M : Type}
    (ops : TrainOps K V O I L Xb Yb G U)
    (nb : NotebookGlobals K V O Xb Yb L G U I M) :
    carriedPart (trainCell ops nb).train =
      (fun s => trainStep ops nb.train_ids nb.batch_size nb.block_size s)^[100]
        (carriedPart nb.train) ∧
    (trainTraceFull ops nb.train_ids nb.batch_size nb.block_size 0 100 nb.train).length
      = 100 ∧
    (trainCell ops nb).steps = 100 ∧
    (trainCell ops nb).batch_size = nb.batch_size ∧
    (trainCell ops nb).block_size = nb.block_size ∧
    (trainCell ops nb).train_ids = nb.train_ids ∧
    (trainCell ops nb).rest = nb.rest ∧
    (trainCellBigram ops nb).steps = 100 ∧
    (trainCellBigram ops nb).batch_size = 32 ∧
    (trainCellBigram ops nb).block_size = nb.block_size ∧
    (trainCellBigram ops nb).train_ids = nb.train_ids ∧
    (trainCellBigram ops nb).rest = nb.rest := by
  refine ⟨?_, trainTraceFull_length ops nb.train_ids nb.batch_size nb.block_size 100 0
    nb.train, rfl, rfl, rfl, rfl, rfl, rfl, rfl, rfl, rfl, rfl⟩
  have h1 := carriedPart_foldl ops nb.train_ids nb.batch_size nb.block_size
    (List.range 100) nb.train
  have h2 := trainLoop_eq_iterate ops nb.train_ids nb.batch_size nb.block_size 100
    (carriedPart nb.train)
  unfold trainLoop at h2
  exact h1.trans h2


/-! ## Multi-headed attention (multi-head notebook, without projection)

```
heads = [Head(self.head_size) for _ in range(self.num_heads)]
heads_out = [h(x) for h in heads]
combined_logits = jnp.concatenate(heads_out, axis=-1)
```
The last axis of each head output, and the concatenation along the last
axis, are embedded as lists of rationals. -/

/-- The last axis of one head's output at position `(b, t)`, as a list of
length `head_size`. -/
def headOutRow {B T C H : ℕ} (e : ℚ → ℚ) (scale : ℚ) (p : HeadParams C H)
    (x : Arr3 B T C) (b : Fin B) (t : Fin T) : List ℚ :=
  List.ofFn (fun h => headOut e scale p x b t h)

/-- Embeds `MultiHeadedAttention.__call__` at position `(b, t)`: the heads (one
parameter record per head, `ps.length = num_heads`) are all applied to the
same input and their outputs are concatenated along the last axis. -/
def mhaRow {B T C : ℕ} (e : ℚ → ℚ) (scale : ℚ) (head_size : ℕ)
    (ps : List (HeadParams C head_size)) (x : Arr3 B T C) (b : Fin B) (t : Fin T) :
    List ℚ :=
  (ps.map (fun p => headOutRow e scale p x b t)).flatten

/-- Concatenating `num_heads` head outputs multiplies the last dimension by
`num_heads`. -/
theorem mhaRow_length {B T C : ℕ} (e : ℚ → ℚ) (scale : ℚ) (head_size : ℕ)
    (ps : List (HeadParams C head_size)) (x : Arr3 B T C) (b : Fin B) (t : Fin T) :
    (mhaRow e scale head_size ps x b t).length = ps.length * head_size := by
  induction ps with
  | nil => simp [mhaRow]
  | cons p ps ih =>
    simp only [mhaRow, List.map_cons, List.flatten_cons, List.length_append]
    rw [show (List.map (fun p => headOutRow e scale p x b t) ps).flatten.length =
      (mhaRow e scale head_size ps x b t).length from rfl, ih]
    simp only [headOutRow, List.length_ofFn, List.length_cons]
    ring

/-- Claim C8: multi-head shape preservation.  When `num_heads` divides
`n_embed` and `head_size = n_embed / num_heads`, the concatenation of the
`num_heads` head outputs along the last axis has last dimension `n_embed`
again — the same output dimension as a single head of size `n_embed`. -/
theorem mha_shape_preservation {B T : ℕ} (e : ℚ → ℚ) (scale : ℚ)
    (n_embed num_heads : ℕ) (hdvd : num_heads ∣ n_embed)
    (ps : List (HeadParams n_embed (n_embed / num_heads)))
    (hlen : ps.length = num_heads)
    (p1 : HeadParams n_embed n_embed) (x : Arr3 B T n_embed) (b : Fin B) (t : Fin T) :
    (mhaRow e scale (n_embed / num_heads) ps x b t).length = n_embed ∧
    (mhaRow e scale (n_embed / num_heads) ps x b t).length =
      (headOutRow e scale p1 x b t).length := by
  have h1 : (mhaRow e scale (n_embed / num_heads) ps x b t).length = n_embed := by
    rw [mhaRow_length, hlen, Nat.mul_div_cancel' hdvd]
  refine ⟨h1, ?_⟩
  rw [h1]
  simp [headOutRow]

/-- Concrete parameters for one head with `C = 2`, `H = 1`, used by witnesses. -/
def headParamsW2 : HeadParams 2 1 := ⟨fun _ _ => 1, fun _ _ => 1, fun _ _ => 1⟩

/-- Concrete parameters for one head with `C = 2`, `H = 2`, used by witnesses. -/
def headParamsW22 : HeadParams 2 2 := ⟨fun _ _ => 1, fun _ _ => 1, fun _ _ => 1⟩

/-- A concrete `(1, 1, 2)` input used by witnesses. -/
def xW2 : Arr3 1 1 2 := fun _ _ c => if c.val = 0 then 1 else 2

/-- Witness for claim C8 at `n_embed = 2`, `num_heads = 2`, `head_size = 1`,
`B = T = 1`. -/
theorem mha_shape_preservation_witness :
    ((2 : ℕ) ∣ 2) ∧
    ([headParamsW2, headParamsW2].length = 2) ∧
    (mhaRow expW 1 1 [headParamsW2, headParamsW2] xW2 0 0).length = 2 := by
  have h := mha_shape_preservation expW 1 2 2 (by decide)
    [headParamsW2, headParamsW2] (by decide) headParamsW22 xW2 0 0
  exact ⟨by decide, by decide, h.1⟩

/-! ## The notebook inventory

The repository holds five notebooks — bigram, scaled (single-head)
self-attention, multi-headed self-attention, transformer decoder block,
GPT-2 — whose training and generation constants are transcribed below from
their configuration, training and generation cells. -/

/-- The five stages of the pedagogical progression. -/
inductive Stage
  | bigram
  | singleHead
  | multiHead
  | decoderBlock
  | gpt2
deriving DecidableEq

/-- The constants of one notebook: its stage, the number of training steps
(`steps`), the training `batch_size` and `block_size`, the dataset URL of its
download cell, and the `max_new_tokens` of its post-training generation cell. -/
structure NotebookCfg where
  stage : Stage
  steps : ℕ
  batch_size : ℕ
  block_size : ℕ
  data_url : String
  max_new_tokens : ℕ

/-- The tiny-shakespeare dataset URL appearing in every download cell. -/
def tinyShakespeareURL : String :=
  "https://raw.githubusercontent.com/karpathy/char-rnn/master/data/tinyshakespeare/input.txt"

/-- Notebook `bigram.ipynb`: `steps = 100`, training `batch_size = 32`,
`block_size = 8`, generation `max_new_tokens = 100`. -/
def bigramNB : NotebookCfg := ⟨Stage.bigram, 100, 32, 8, tinyShakespeareURL, 100⟩

/-- Notebook `scaled_self-attention.ipynb`: `steps = 100`, `batch_size = 32`,
`block_size = 8`, `max_new_tokens = 100`. -/
def singleHeadNB : NotebookCfg := ⟨Stage.singleHead, 100, 32, 8, tinyShakespeareURL, 100⟩

/-- Notebook `multi-headed_self-attention.ipynb`: `steps = 100`, `batch_size = 32`,
`block_size = 8`, `max_new_tokens = 100`. -/
def multiHeadNB : NotebookCfg := ⟨Stage.multiHead, 100, 32, 8, tinyShakespeareURL, 100⟩

/-- The transformer-decoder notebook: `steps = 100`, `batch_size = 32`,
`block_size = 8`, `max_new_tokens = 50`. -/
def decoderNB : NotebookCfg := ⟨Stage.decoderBlock, 100, 32, 8, tinyShakespeareURL, 50⟩

/-- The GPT-2 notebook: `steps = 100`, `batch_size = 16`, `block_size = 32`,
`max_new_tokens = 20`. -/
def gpt2NB : NotebookCfg := ⟨Stage.gpt2, 100, 16, 32, tinyShakespeareURL, 20⟩

/-- The repository's notebooks, in progression order. -/
def notebooks : List NotebookCfg :=
  [bigramNB, singleHeadNB, multiHeadNB, decoderNB, gpt2NB]

/-- Claim C6: one notebook per stage of the progression (bigram, single-head
attention, multi-head attention, transformer decoder block, GPT-2); every one
of them trains for the same fixed number of steps (100) on the same fixed
corpus (the tiny-shakespeare download of its data cell) and then samples a
positive number of generated tokens to print. -/
theorem notebook_progression :
    notebooks.map NotebookCfg.stage =
      [Stage.bigram, Stage.singleHead, Stage.multiHead, Stage.decoderBlock, Stage.gpt2] ∧
    notebooks.map NotebookCfg.steps = List.replicate 5 100 ∧
    notebooks.map NotebookCfg.data_url = List.replicate 5 tinyShakespeareURL ∧
    notebooks.map NotebookCfg.max_new_tokens = [100, 100, 100, 50, 20] ∧
    (notebooks.all fun nb => 0 < nb.max_new_tokens) = true :=
  ⟨rfl, rfl, rfl, rfl, by decide⟩

/-! ## The GPT-2 notebook: full forward pass and dropout

Every `nn.Dropout` in the GPT-2 notebook is constructed with
`deterministic=True`.  Below the forward pass is embedded twice: once
exactly as written (`gpt2Forward`, with the three dropout sites), and once
following the spec's words — the identical network with the dropout layers
removed (`gpt2ForwardND`).  Claim C7 is their equality. -/

/-- Parameters of `nn.Dense(features)` with its default bias. -/
structure DenseParams (Cin Cout : ℕ) where
  w : Fin Cin → Fin Cout → ℚ
  bias : Fin Cout → ℚ

/-- Embeds a biased `nn.Dense`: `y[b,t,j] = Σ_c x[b,t,c] * w[c,j] + bias[j]`. -/
def denseB {B T Cin Cout : ℕ} (p : DenseParams Cin Cout) (x : Arr3 B T Cin) :
    Arr3 B T Cout :=
  fun b t j => (∑ c, x b t c * p.w c j) + p.bias j

/-- Embeds `jax.nn.relu`. -/
def relu (a : ℚ) : ℚ := max 0 a

/-- The default `epsilon = 1e-6` of `flax.linen.LayerNorm`. -/
def lnEps : ℚ := 1 / 1000000

/-- Parameters of `nn.LayerNorm()`: its learned scale and bias. -/
structure LNParams (C : ℕ) where
  gamma : Fin C → ℚ
  beta : Fin C → ℚ

/-- Embeds `nn.LayerNorm()` over the last axis; `rsqrt` stands for the
reciprocal square root. -/
def layerNorm {B T C : ℕ} (rsqrt : ℚ → ℚ) (p : LNParams C) (x : Arr3 B T C) :
    Arr3 B T C :=
  fun b t c =>
    let mu := (∑ j, x b t j) / (C : ℚ)
    let vr := (∑ j, (x b t j - mu) ^ 2) / (C : ℚ)
    (x b t c - mu) * rsqrt (vr + lnEps) * p.gamma c + p.beta c

/-- Embeds `nn.Dropout(rate=drop_rate, deterministic=det)` on a `(B, T, C)`
array.  With `det = true` (the only way the notebook constructs it) the layer
returns its input; with `det = false` it would zero the entries whose rng-drawn
keep mask is false and rescale the rest by `1 / (1 - rate)`. -/
def dropout3 {B T C : ℕ} (rate : ℚ) (det : Bool)
    (keep : Fin B → Fin T → Fin C → Bool) (x : Arr3 B T C) : Arr3 B T C :=
  if det then x else fun b t c => if keep b t c then x b t c / (1 - rate) else 0

/-- Parameters of the GPT-2 notebook's `FeedForward` block:
`nn.Dense(4 * n_embed)` then `nn.Dense(n_embed)`. -/
structure FFParams (n : ℕ) where
  fc : DenseParams n (4 * n)
  proj : DenseParams (4 * n) n

/-- Embeds `FeedForward.__call__` of the GPT-2 notebook: `Dense(4n) → relu →
Dense(n) → Dropout(rate, deterministic=True)`. -/
def feedForward {B T n : ℕ} (rate : ℚ) (p : FFParams n)
    (keep : Fin B → Fin T → Fin n → Bool) (x : Arr3 B T n) : Arr3 B T n :=
  dropout3 rate true keep (denseB p.proj (fun b t j => relu (denseB p.fc x b t j)))

/-- Block `FeedForward` with the dropout layer removed (transformer-decoder
notebook form, and the spec's reading of C7). -/
def feedForwardND {B T n : ℕ} (p : FFParams n) (x : Arr3 B T n) : Arr3 B T n :=
  denseB p.proj (fun b t j => relu (denseB p.fc x b t j))

/-- Embeds `Head.__call__` of the GPT-2 notebook: as `headOut`, with
`nn.Dropout(rate, deterministic=True)` applied to the attention weights
after the softmax. -/
def headDropOut {B T C H : ℕ} (e : ℚ → ℚ) (scale rate : ℚ) (p : HeadParams C H)
    (keep : Fin B → Fin T → Fin T → Bool) (x : Arr3 B T C) : Arr3 B T H :=
  fun b t h =>
    ∑ s, dropout3 rate true keep (headWeights e scale p x) b t s * dense p.wv x b s h

/-- Concatenation of `nh` head outputs along the last axis
(`jnp.concatenate(heads_out, axis=-1)`), indexed over `Fin (nh * hs)`:
entry `j` comes from head `j / hs` at inner index `j % hs`. -/
def concatLast {B T nh hs : ℕ} (f : Fin nh → Arr3 B T hs) : Arr3 B T (nh * hs) :=
  fun b t j =>
    have h0 : 0 < nh * hs := j.pos
    have hhs : 0 < hs := by
      rcases Nat.eq_zero_or_pos hs with h | h
      · rw [h, Nat.mul_zero] at h0; exact absurd h0 (lt_irrefl 0)
      · exact h
    f ⟨j.val / hs, (Nat.div_lt_iff_lt_mul hhs).2 j.isLt⟩ b t ⟨j.val % hs, Nat.mod_lt _ hhs⟩

/-- Parameters of the GPT-2 notebook's `MultiHeadedAttention`: one
`HeadParams` per head plus the projection `nn.Dense(n_embed)`. -/
structure MHAParams (n nh hs : ℕ) where
  heads : Fin nh → HeadParams n hs
  proj : DenseParams (nh * hs) n

/-- Embeds `MultiHeadedAttention.__call__` of the GPT-2 notebook: concatenated head
outputs, projection, then `nn.Dropout(rate, deterministic=True)`. -/
def mhaDrop {B T n nh hs : ℕ} (e : ℚ → ℚ) (scale rate : ℚ) (p : MHAParams n nh hs)
    (keepH : Fin nh → Fin B → Fin T → Fin T → Bool)
    (keepP : Fin B → Fin T → Fin n → Bool) (x : Arr3 B T n) : Arr3 B T n :=
  dropout3 rate true keepP
    (denseB p.proj (concatLast (fun i => headDropOut e scale rate (p.heads i) (keepH i) x)))

/-- Module `MultiHeadedAttention` with the dropout layers removed. -/
def mhaND {B T n nh hs : ℕ} (e : ℚ → ℚ) (scale : ℚ) (p : MHAParams n nh hs)
    (x : Arr3 B T n) : Arr3 B T n :=
  denseB p.proj (concatLast (fun i => headOut e scale (p.heads i) x))

/-- Parameters of one transformer decoder `Block` of the GPT-2 notebook:
two layer norms, the multi-headed attention with
`head_size = n_embed // num_heads`, and the feed-forward block. -/
structure BlockParams (n nh : ℕ) where
  ln1 : LNParams n
  mha : MHAParams n nh (n / nh)
  ln2 : LNParams n
  ff : FFParams n

/-- The rng-drawn keep masks of the three dropout sites of one block. -/
structure BlockKeeps (B T n nh : ℕ) where
  kH : Fin nh → Fin B → Fin T → Fin T → Bool
  kP : Fin B → Fin T → Fin n → Bool
  kF : Fin B → Fin T → Fin n → Bool

/-- Embeds `Block.__call__` of the GPT-2 notebook:
`x = x + sa_heads(LayerNorm(x)); x = x + ffwd(LayerNorm(x))`. -/
def blockDrop {B T n nh : ℕ} (e rsqrt : ℚ → ℚ) (scale rate : ℚ)
    (p : BlockParams n nh) (ks : BlockKeeps B T n nh) (x : Arr3 B T n) : Arr3 B T n :=
  let x1 : Arr3 B T n := fun b t c =>
    x b t c + mhaDrop e scale rate p.mha ks.kH ks.kP (layerNorm rsqrt p.ln1 x) b t c
  fun b t c => x1 b t c + feedForward rate p.ff ks.kF (layerNorm rsqrt p.ln2 x1) b t c

/-- Module `Block` with the dropout layers removed. -/
def blockND {B T n nh : ℕ} (e rsqrt : ℚ → ℚ) (scale : ℚ)
    (p : BlockParams n nh) (x : Arr3 B T n) : Arr3 B T n :=
  let x1 : Arr3 B T n := fun b t c =>
    x b t c + mhaND e scale p.mha (layerNorm rsqrt p.ln1 x) b t c
  fun b t c => x1 b t c + feedForwardND p.ff (layerNorm rsqrt p.ln2 x1) b t c

/-- The parameters of the `GPT2` module: token and position embedding tables,
`num_layers` decoder blocks, the final layer norm, and the `lm_head` dense. -/
structure GPT2Params (V n block_size nh L : ℕ) where
  tok : Fin V → Fin n → ℚ
  pos : Fin block_size → Fin n → ℚ
  blocks : Fin L → BlockParams n nh
  lnf : LNParams n
  lm_head : DenseParams n V

/-- Embeds `GPT2.__call__` exactly as written: embeddings, the `num_layers` decoder
blocks in sequence (with their `deterministic=True` dropout layers), the
final layer norm, and the language-model head.  `hT` embeds the requirement
`T ≤ block_size` of `position_embedding_table(jnp.arange(T))`. -/
def gpt2Forward {B T V n block_size nh L : ℕ} (e rsqrt : ℚ → ℚ) (scale rate : ℚ)
    (P : GPT2Params V n block_size nh L) (ks : Fin L → BlockKeeps B T n nh)
    (hT : T ≤ block_size) (index_seq : Fin B → Fin T → Fin V) : Arr3 B T V :=
  let x0 : Arr3 B T n := fun b t c =>
    P.tok (index_seq b t) c + P.pos ⟨t.val, lt_of_lt_of_le t.isLt hT⟩ c
  let xL := (List.finRange L).foldl
    (fun acc i => blockDrop e rsqrt scale rate (P.blocks i) (ks i) acc) x0
  denseB P.lm_head (layerNorm rsqrt P.lnf xL)

/-- The identical network with the dropout layers removed (the spec's words
for claim C7). -/
def gpt2ForwardND {B T V n block_size nh L : ℕ} (e rsqrt : ℚ → ℚ) (scale : ℚ)
    (P : GPT2Params V n block_size nh L)
    (hT : T ≤ block_size) (index_seq : Fin B → Fin T → Fin V) : Arr3 B T V :=
  let x0 : Arr3 B T n := fun b t c =>
    P.tok (index_seq b t) c + P.pos ⟨t.val, lt_of_lt_of_le t.isLt hT⟩ c
  let xL := (List.finRange L).foldl
    (fun acc i => blockND e rsqrt scale (P.blocks i) acc) x0
  denseB P.lm_head (layerNorm rsqrt P.lnf xL)

/-- Claim C7: every dropout layer of the GPT-2 notebook is constructed with
`deterministic=True`, so the GPT-2 forward pass equals the forward pass of
the identical network with the dropout layers removed, for all parameters,
all dropout rates, all rng keep masks and all inputs: dropout never zeroes
an activation, and the forward pass is a deterministic function of
(parameters, input). -/
theorem gpt2_dropout_identity {B T V n block_size nh L : ℕ} (e rsqrt : ℚ → ℚ)
    (scale rate : ℚ) (P : GPT2Params V n block_size nh L)
    (ks : Fin L → BlockKeeps B T n nh) (hT : T ≤ block_size)
    (index_seq : Fin B → Fin T → Fin V) :
    gpt2Forward e rsqrt scale rate P ks hT index_seq =
      gpt2ForwardND e rsqrt scale P hT index_seq := rfl

/-- Concrete GPT-2 parameters with all dimensions 1 (and constant weights),
used by the C7 witness. -/
def gpt2ParamsW : GPT2Params 1 1 1 1 1 where
  tok := fun _ _ => 1
  pos := fun _ _ => 1
  blocks := fun _ =>
    { ln1 := ⟨fun _ => 1, fun _ => 0⟩
      mha := { heads := fun _ => headParamsW, proj := ⟨fun _ _ => 1, fun _ => 0⟩ }
      ln2 := ⟨fun _ => 1, fun _ => 0⟩
      ff := { fc := ⟨fun _ _ => 1, fun _ => 0⟩, proj := ⟨fun _ _ => 1, fun _ => 0⟩ } }
  lnf := ⟨fun _ => 1, fun _ => 0⟩
  lm_head := ⟨fun _ _ => 1, fun _ => 0⟩

/-- Concrete keep masks (all true) used by the C7 witness. -/
def blockKeepsW : BlockKeeps 1 1 1 1 :=
  ⟨fun _ _ _ _ => true, fun _ _ _ => true, fun _ _ _ => true⟩

/-- Witness for claim C7 at all dimensions 1, rate `1/10`. -/
theorem gpt2_dropout_identity_witness :
    ((1 : ℕ) ≤ 1) ∧
    gpt2Forward expW expW 1 (1 / 10) gpt2ParamsW (fun _ => blockKeepsW)
        (le_refl 1) (fun _ _ => 0) =
      gpt2ForwardND expW expW 1 gpt2ParamsW (le_refl 1) (fun _ _ => 0) :=
  ⟨le_refl 1,
    gpt2_dropout_identity expW expW 1 (1 / 10) gpt2ParamsW (fun _ => blockKeepsW)
      (le_refl 1) (fun _ _ => 0)⟩

end TransformersJax
